import Mathlib

/-!
Shallow embedding of `crates/indexer/src/models/coin_models/coin_activities.rs`
(the coin-activity transaction extractor of the Aptos indexer), together with
the auxiliary classifiers it calls.

Conventions:
* u64 values are `Nat`; where the Rust code multiplies two u64 values the
  result is reduced `% 2 ^ 64` (release-mode wrapping semantics).
* the `as i64` casts on u64 values are modelled by `u64ToI64`.
* `panic!` / `.unwrap()` failure paths are modelled by `Except ExtractError`.
* `chrono::Utc::now()` is modelled by an explicit `now : Nat` parameter;
  every record stores it in its `inserted_at` field.
* `HashMap`s are association lists in which lookup returns the first hit and
  entries of later writes are placed in front, so a later insertion shadows
  an earlier one exactly like `HashMap::insert` / `HashMap::extend`.
-/

/-- Two's-complement cast of a u64 value to i64, as performed by `as i64`. -/
def u64ToI64 (n : Nat) : Int :=
  if n % 2 ^ 64 < 2 ^ 63 then ((n % 2 ^ 64 : Nat) : Int)
  else ((n % 2 ^ 64 : Nat) : Int) - 2 ^ 64

/-- Association-list lookup: the first entry whose key matches wins. -/
def mapLookup {α β : Type} [DecidableEq α] : List (α × β) → α → Option β
  | [], _ => none
  | (k, v) :: rest, key => if key = k then some v else mapLookup rest key

/-- `const BURN_GAS_EVENT: &str = "0x1::aptos_coin::GasBurnEvent";` -/
def BURN_GAS_EVENT : String := "0x1::aptos_coin::GasBurnEvent"

/-- `const BURN_GAS_EVENT_CREATION_NUM: i64 = -1;` -/
def BURN_GAS_EVENT_CREATION_NUM : Int := -1

/-- `const BURN_GAS_EVENT_SEQUENCE_NUM: i64 = -1;` -/
def BURN_GAS_EVENT_SEQUENCE_NUM : Int := -1

/-- `APTOS_COIN_TYPE.to_string()` from `aptos_types`. -/
def APTOS_COIN_TYPE : String := "0x1::aptos_coin::AptosCoin"

/-- Modelled from the spec: the withdraw-event type-name constant recognized by
the event classifier of `coin_utils.rs` (not under `src/`). -/
def WITHDRAW_EVENT_TYPE : String := "0x1::coin::WithdrawEvent"

/-- Modelled from the spec: the deposit-event type-name constant recognized by
the event classifier of `coin_utils.rs` (not under `src/`). -/
def DEPOSIT_EVENT_TYPE : String := "0x1::coin::DepositEvent"

/-- `EventGuidResource` from `coin_utils.rs`: GUID of an event stream,
an account address plus an i64 creation number. -/
structure EventGuidResource where
  addr : String
  creation_num : Int
deriving DecidableEq

/-- GUID carried by an API event (`event.guid`): account address and a u64
creation number. -/
structure APIEventGuid where
  account_address : String
  creation_number : Nat
deriving DecidableEq

/-- Decoded payload of an emitted event. The spec's event classifier cares only
about whether the payload carries a decimal amount. -/
inductive EventData where
  | amountPayload (amount : Nat)
  | malformedPayload
deriving DecidableEq

/-- An emitted event as delivered by the execution API: type name, GUID,
sequence number, decoded payload. -/
structure APIEvent where
  guid : APIEventGuid
  sequence_number : Nat
  typ : String
  data : EventData
deriving DecidableEq

/-- Supply descriptor of a coin-info resource: either a direct number or a
reference to an aggregator table handle. -/
inductive SupplyDescriptor where
  | direct (value : Nat)
  | aggregator (handle : String)
deriving DecidableEq

/-- Decoded fields of a written resource, as seen by the resource classifier:
a coin-info resource, a coin-store resource, or anything else (ignored). -/
inductive ResourceData where
  | CoinInfoResource (coin_type name symbol : String) (decimals : Int)
      (supply : SupplyDescriptor)
  | CoinStoreResource (coin_type : String) (coin : Nat)
      (deposit_guid withdraw_guid : EventGuidResource)
  | otherResource
deriving DecidableEq

/-- `WriteResource`: the address the resource is stored under plus decoded data. -/
structure WriteResource where
  address : String
  data : ResourceData
deriving DecidableEq

/-- Decoded value of a written table item: aggregator-shaped (handle, value) or
anything else (skipped, never an error). -/
inductive TableItemValue where
  | aggregatorValue (handle : String) (value : Nat)
  | otherValue
deriving DecidableEq

/-- `WriteTableItem`: table handle, key, decoded value. -/
structure WriteTableItem where
  handle : String
  key : String
  value : TableItemValue
deriving DecidableEq

/-- `WriteSetChange`: tagged variant of one write-set change. -/
inductive WriteSetChange where
  | WriteResource (write_resource : WriteResource)
  | WriteTableItem (table_item : WriteTableItem)
  | otherChange
deriving DecidableEq

/-- Payload of a user-submitted transaction: an entry-function call carrying a
fully-qualified function name, or any other payload. -/
inductive TransactionPayload where
  | EntryFunctionPayload (function : String)
  | otherPayload
deriving DecidableEq

/-- `UserTransactionRequest`: sender, gas unit price (u64), payload. -/
structure UserTransactionRequest where
  sender : String
  gas_unit_price : Nat
  payload : TransactionPayload
deriving DecidableEq

/-- `TransactionInfo`: version (u64), success flag, gas used (u64), and the
ordered write-set changes (`info.changes`). -/
structure TransactionInfo where
  version : Nat
  success : Bool
  gas_used : Nat
  changes : List WriteSetChange
deriving DecidableEq

/-- `APITransaction`: the transaction variants. Genesis and user transactions
carry info and events (the user one also the request); every other variant is
ignored by the extractor (`_ => return Default::default()`). -/
inductive APITransaction where
  | GenesisTransaction (info : TransactionInfo) (events : List APIEvent)
  | UserTransaction (info : TransactionInfo) (events : List APIEvent)
      (request : UserTransactionRequest)
  | otherTransaction
deriving DecidableEq

/-- The extractor's error type. `DecodeError` models a `.unwrap()` on a payload
that contradicts its type name; `MissingCoinType` models the `panic!` in
`from_parsed_event`, carrying the transaction version, the offending event
GUID, and the full event-to-coin-type map, exactly as the panic message does. -/
inductive ExtractError where
  | DecodeError (txn_version : Int)
  | MissingCoinType (txn_version : Int) (event_guid : EventGuidResource)
      (mapping : List (EventGuidResource × String))
deriving DecidableEq

/-- The per-transaction event-to-coin-type map (`EventToCoinType`). -/
abbrev EventToCoinType := List (EventGuidResource × String)

/-- Primary key of the current_coin_balances output: (owner address, coin type). -/
abbrev CurrentCoinBalancePK := String × String

/-- The `CoinActivity` output record, fields as in the Rust struct. -/
structure CoinActivity where
  transaction_version : Int
  event_account_address : String
  event_creation_number : Int
  event_sequence_number : Int
  owner_address : String
  coin_type : String
  amount : Nat
  activity_type : String
  is_gas_fee : Bool
  is_transaction_success : Bool
  entry_function_id_str : Option String
  inserted_at : Nat
deriving DecidableEq

/-- The `CoinInfo` output record (coin_infos.rs is not under `src/`; fields
follow the spec's CoinInfoRecord: keyed by (coin type, version first observed),
creator address, name, symbol, decimals, resolved supply which may be absent). -/
structure CoinInfo where
  coin_type : String
  transaction_version_created : Int
  creator_address : String
  name : String
  symbol : String
  decimals : Int
  supply : Option Nat
  inserted_at : Nat
deriving DecidableEq

/-- The `CoinBalance` output record (coin_balances.rs is not under `src/`;
fields follow the spec's CoinBalanceRecord: keyed by (owner, coin type,
version), balance snapshot plus the deposit/withdraw GUIDs of the coin store). -/
structure CoinBalance where
  transaction_version : Int
  owner_address : String
  coin_type : String
  amount : Nat
  deposit_guid : EventGuidResource
  withdraw_guid : EventGuidResource
  inserted_at : Nat
deriving DecidableEq

/-- The `CurrentCoinBalance` output record (coin_balances.rs is not under
`src/`; fields follow the spec's CurrentCoinBalanceRecord: keyed by
(owner, coin type), balance as of the highest version observed). -/
structure CurrentCoinBalance where
  owner_address : String
  coin_type : String
  amount : Nat
  last_transaction_version : Int
  inserted_at : Nat
deriving DecidableEq

/-- The four output collections of `from_transaction`. -/
abbrev ExtractOut :=
  List CoinActivity × List CoinInfo × List CoinBalance
    × List (CurrentCoinBalancePK × CurrentCoinBalance)

/-- `CoinEvent` from `coin_utils.rs`: a recognized withdraw or deposit event
carrying its decimal amount. -/
inductive CoinEvent where
  | WithdrawCoinEvent (amount : Nat)
  | DepositCoinEvent (amount : Nat)
deriving DecidableEq

/-- Modelled from the spec: `CoinEvent::from_event` of `coin_utils.rs` (not
under `src/`). Recognizes exactly the withdraw and deposit event shapes, each
carrying a decimal amount; returns a typed value on match, `none` on an
unrecognized type name, and a fatal DecodeError when a recognized type name
has a payload contradicting its shape. -/
def CoinEvent.from_event (typ : String) (data : EventData) (txn_version : Int) :
    Except ExtractError (Option CoinEvent) :=
  if typ = WITHDRAW_EVENT_TYPE then
    match data with
    | .amountPayload amount => .ok (some (.WithdrawCoinEvent amount))
    | .malformedPayload => .error (.DecodeError txn_version)
  else if typ = DEPOSIT_EVENT_TYPE then
    match data with
    | .amountPayload amount => .ok (some (.DepositCoinEvent amount))
    | .malformedPayload => .error (.DecodeError txn_version)
  else .ok none

/-- Modelled from the spec: `truncate_str` from `crate::util` (not under
`src/`); an identifier longer than `max_chars` characters is truncated to
exactly `max_chars` characters. -/
def truncate_str (s : String) (max_chars : Nat) : String :=
  String.mk (s.data.take max_chars)

/-- Modelled from the spec: `CoinInfo::get_aggregator_supply_lookup` of
`coin_infos.rs` (not under `src/`). An aggregator-shaped table-item value
yields one (handle, value) entry; anything else is skipped, never an error. -/
def CoinInfo.get_aggregator_supply_lookup (table_item : WriteTableItem) :
    List (String × Nat) :=
  match table_item.value with
  | .aggregatorValue handle value => [(handle, value)]
  | .otherValue => []

/-- Modelled from the spec: `CoinInfo::from_write_resource` of `coin_infos.rs`
(not under `src/`). A coin-info resource write yields one CoinInfo record;
direct supply is taken as is, indirect supply is resolved via the aggregator
lookup and recorded as absent (not zero) when the handle is missing. -/
def CoinInfo.from_write_resource (write_resource : WriteResource)
    (txn_version : Int) (supply_lookup : List (String × Nat)) (now : Nat) :
    Option CoinInfo :=
  match write_resource.data with
  | .CoinInfoResource coin_type name symbol decimals supply =>
    some { coin_type := coin_type,
           transaction_version_created := txn_version,
           creator_address := write_resource.address,
           name := name,
           symbol := symbol,
           decimals := decimals,
           supply := match supply with
             | .direct value => some value
             | .aggregator handle => mapLookup supply_lookup handle,
           inserted_at := now }
  | _ => none

/-- Modelled from the spec: `CoinBalance::from_write_resource` of
`coin_balances.rs` (not under `src/`). A coin-store resource write yields a
CoinBalance, a CurrentCoinBalance, and the two event-to-coin-type entries for
its deposit and withdraw GUIDs. -/
def CoinBalance.from_write_resource (write_resource : WriteResource)
    (txn_version : Int) (now : Nat) :
    Option (CoinBalance × CurrentCoinBalance × EventToCoinType) :=
  match write_resource.data with
  | .CoinStoreResource coin_type coin deposit_guid withdraw_guid =>
    some ({ transaction_version := txn_version,
            owner_address := write_resource.address,
            coin_type := coin_type,
            amount := coin,
            deposit_guid := deposit_guid,
            withdraw_guid := withdraw_guid,
            inserted_at := now },
          { owner_address := write_resource.address,
            coin_type := coin_type,
            amount := coin,
            last_transaction_version := txn_version,
            inserted_at := now },
          [(deposit_guid, coin_type), (withdraw_guid, coin_type)])
  | _ => none

/-- The GUID under which `from_parsed_event` looks an event up
(`EventGuidResource { addr, creation_num: ... as i64 }`). -/
def eventGuidOf (event : APIEvent) : EventGuidResource :=
  { addr := event.guid.account_address,
    creation_num := u64ToI64 event.guid.creation_number }

/-- `CoinActivity::from_parsed_event`: builds the activity for one recognized
withdraw/deposit event. The `panic!` on a GUID missing from the
event-to-coin-type map becomes a `MissingCoinType` error carrying the
transaction version, the event GUID, and the full map. -/
def CoinActivity.from_parsed_event (event_type : String) (event : APIEvent)
    (coin_event : CoinEvent) (txn_version : Int)
    (event_to_coin_type : EventToCoinType)
    (entry_function_id_str : Option String) (now : Nat) :
    Except ExtractError CoinActivity :=
  let amount := match coin_event with
    | .WithdrawCoinEvent inner => inner
    | .DepositCoinEvent inner => inner
  let event_move_guid := eventGuidOf event
  match mapLookup event_to_coin_type event_move_guid with
  | none => .error (.MissingCoinType txn_version event_move_guid event_to_coin_type)
  | some coin_type =>
    .ok { transaction_version := txn_version,
          event_account_address := event.guid.account_address,
          event_creation_number := u64ToI64 event.guid.creation_number,
          event_sequence_number := u64ToI64 event.sequence_number,
          owner_address := event.guid.account_address,
          coin_type := coin_type,
          amount := amount,
          activity_type := event_type,
          is_gas_fee := false,
          is_transaction_success := true,
          entry_function_id_str := entry_function_id_str,
          inserted_at := now }

/-- `CoinActivity::get_gas_event`: the synthetic gas-fee activity. The amount
is `txn_info.gas_used.0 * user_transaction_request.gas_unit_price.0 as u64`,
a u64 multiplication that wraps modulo 2^64, only then converted to
BigDecimal. -/
def CoinActivity.get_gas_event (txn_info : TransactionInfo)
    (user_transaction_request : UserTransactionRequest) (now : Nat) :
    CoinActivity :=
  let aptos_coin_burned : Nat :=
    (txn_info.gas_used * user_transaction_request.gas_unit_price) % 2 ^ 64
  { transaction_version := u64ToI64 txn_info.version,
    event_account_address := user_transaction_request.sender,
    event_creation_number := BURN_GAS_EVENT_CREATION_NUM,
    event_sequence_number := BURN_GAS_EVENT_SEQUENCE_NUM,
    owner_address := user_transaction_request.sender,
    coin_type := APTOS_COIN_TYPE,
    amount := aptos_coin_burned,
    activity_type := BURN_GAS_EVENT,
    is_gas_fee := true,
    is_transaction_success := txn_info.success,
    entry_function_id_str := none,
    inserted_at := now }

/-- The entry-function identifier computed for a user request
(lines 106-111 of `coin_activities.rs`). -/
def entryFunctionIdOf (user_request : UserTransactionRequest) : Option String :=
  match user_request.payload with
  | .EntryFunctionPayload f => some (truncate_str f 100)
  | .otherPayload => none

/-- Pass 1 of `from_transaction`: collect aggregator supply entries from all
table-item writes; a later write for the same handle shadows an earlier one
(its entry is placed in front, where `mapLookup` finds it first). -/
def buildSupplyLookup : List WriteSetChange → List (String × Nat)
  | [] => []
  | .WriteTableItem table_item :: rest =>
    buildSupplyLookup rest ++ CoinInfo.get_aggregator_supply_lookup table_item
  | _ :: rest => buildSupplyLookup rest

/-- Result of the resource-write pass: coin infos, coin balances, current
coin balances, event-to-coin-type map. -/
abbrev WritesOut :=
  List CoinInfo × List CoinBalance
    × List (CurrentCoinBalancePK × CurrentCoinBalance) × EventToCoinType

/-- Pass 2 of `from_transaction`: run the resource classifier over every
write-set change, accumulating the record lists in scan order. For the two
maps, entries of later writes are placed in front so that they shadow entries
of earlier writes, matching `HashMap::insert` / `HashMap::extend`. -/
def processWrites : List WriteSetChange → Int → List (String × Nat) → Nat →
    WritesOut
  | [], _, _, _ => ([], [], [], [])
  | wsc :: rest, txn_version, supply_lookup, now =>
    let r := processWrites rest txn_version supply_lookup now
    match wsc with
    | .WriteResource write_resource =>
      let head_infos : List CoinInfo :=
        match CoinInfo.from_write_resource write_resource txn_version
            supply_lookup now with
        | some coin_info => [coin_info]
        | none => []
      match CoinBalance.from_write_resource write_resource txn_version now with
      | some (coin_balance, current_coin_balance, event_to_coin_type) =>
        (head_infos ++ r.1,
         coin_balance :: r.2.1,
         r.2.2.1 ++ [((coin_balance.owner_address, coin_balance.coin_type),
                      current_coin_balance)],
         r.2.2.2 ++ event_to_coin_type.reverse)
      | none => (head_infos ++ r.1, r.2.1, r.2.2.1, r.2.2.2)
    | _ => r

/-- The event loop of `from_transaction`: classify each event in emission
order; recognized withdraw/deposit events become activities, unrecognized
ones are silently discarded, and any error aborts the whole pass. -/
def processEvents (events : List APIEvent) (txn_version : Int)
    (event_to_coin_type : EventToCoinType)
    (entry_function_id_str : Option String) (now : Nat) :
    Except ExtractError (List CoinActivity) :=
  match events with
  | [] => .ok []
  | event :: rest =>
    match CoinEvent.from_event event.typ event.data txn_version with
    | .error e => .error e
    | .ok none =>
      processEvents rest txn_version event_to_coin_type entry_function_id_str now
    | .ok (some parsed_event) =>
      match CoinActivity.from_parsed_event event.typ event parsed_event
          txn_version event_to_coin_type entry_function_id_str now with
      | .error e => .error e
      | .ok activity =>
        match processEvents rest txn_version event_to_coin_type
            entry_function_id_str now with
        | .error e => .error e
        | .ok tail => .ok (activity :: tail)

/-- The `match &transaction` at the top of `from_transaction`: genesis and
user transactions yield (info, events, maybe_user_request); every other
variant yields nothing. -/
def txnParts : APITransaction →
    Option (TransactionInfo × List APIEvent × Option UserTransactionRequest)
  | .GenesisTransaction info events => some (info, events, none)
  | .UserTransaction info events request => some (info, events, some request)
  | .otherTransaction => none

/-- Body of `from_transaction` after the variant match: gas-fee synthesis,
supply-lookup pass, resource pass, event pass, in source order. -/
def fromParts (txn_info : TransactionInfo) (events : List APIEvent)
    (maybe_user_request : Option UserTransactionRequest) (now : Nat) :
    Except ExtractError ExtractOut :=
  let entry_function_id_str : Option String :=
    match maybe_user_request with
    | some user_request => entryFunctionIdOf user_request
    | none => none
  let gas_activities : List CoinActivity :=
    match maybe_user_request with
    | some user_request => [CoinActivity.get_gas_event txn_info user_request now]
    | none => []
  let supply_lookup := buildSupplyLookup txn_info.changes
  let txn_version := u64ToI64 txn_info.version
  let pw := processWrites txn_info.changes txn_version supply_lookup now
  match processEvents events txn_version pw.2.2.2 entry_function_id_str now with
  | .error e => .error e
  | .ok event_activities =>
    .ok (gas_activities ++ event_activities, pw.1, pw.2.1, pw.2.2.1)

/-- `CoinActivity::from_transaction`: the transaction extractor. -/
def CoinActivity.from_transaction (transaction : APITransaction) (now : Nat) :
    Except ExtractError ExtractOut :=
  match txnParts transaction with
  | none => .ok ([], [], [], [])
  | some (txn_info, events, maybe_user_request) =>
    fromParts txn_info events maybe_user_request now

/-- Whether the event classifier recognizes this event as a withdraw or
deposit event at this version. -/
def recognizedB (event : APIEvent) (txn_version : Int) : Bool :=
  match CoinEvent.from_event event.typ event.data txn_version with
  | .ok (some _) => true
  | _ => false

/-- Whether the event classifier decodes this event without a fatal error. -/
def decodeOkB (event : APIEvent) (txn_version : Int) : Bool :=
  match CoinEvent.from_event event.typ event.data txn_version with
  | .error _ => false
  | .ok _ => true

/-- The events of a transaction (empty for the ignored variants). -/
def eventsOf (transaction : APITransaction) : List APIEvent :=
  match txnParts transaction with
  | some (_, events, _) => events
  | none => []

/-- Whether the transaction is user-submitted. -/
def isUserTxn : APITransaction → Bool
  | .UserTransaction _ _ _ => true
  | _ => false

/-- The i64 transaction version the extractor works with. -/
def txnVersionOf (transaction : APITransaction) : Int :=
  match txnParts transaction with
  | some (txn_info, _, _) => u64ToI64 txn_info.version
  | none => 0

/-- The event-to-coin-type map the extractor builds for a transaction's info. -/
def eventMapOf (txn_info : TransactionInfo) (now : Nat) : EventToCoinType :=
  (processWrites txn_info.changes (u64ToI64 txn_info.version)
    (buildSupplyLookup txn_info.changes) now).2.2.2

/-- The activity list of an extraction result (empty on error). -/
def extractedActivities : Except ExtractError ExtractOut → List CoinActivity
  | .ok out => out.1
  | .error _ => []

/-- The current-coin-balance map of an extraction result (empty on error). -/
def extractedCurrentBalances :
    Except ExtractError ExtractOut →
      List (CurrentCoinBalancePK × CurrentCoinBalance)
  | .ok out => out.2.2.2
  | .error _ => []

/-- A default activity record, used only as the fallback of `headActivity`. -/
def defaultActivity : CoinActivity :=
  { transaction_version := 0, event_account_address := "",
    event_creation_number := 0, event_sequence_number := 0,
    owner_address := "", coin_type := "", amount := 0, activity_type := "",
    is_gas_fee := false, is_transaction_success := false,
    entry_function_id_str := none, inserted_at := 0 }

/-- The first activity of an extraction result. -/
def headActivity (r : Except ExtractError ExtractOut) : CoinActivity :=
  (extractedActivities r).headD defaultActivity

/-- Clear the insertion time of an activity record. -/
def eraseActivityTime (a : CoinActivity) : CoinActivity :=
  { a with inserted_at := 0 }

/-- Clear the insertion time of a coin-info record. -/
def eraseCoinInfoTime (c : CoinInfo) : CoinInfo :=
  { c with inserted_at := 0 }

/-- Clear the insertion time of a coin-balance record. -/
def eraseCoinBalanceTime (c : CoinBalance) : CoinBalance :=
  { c with inserted_at := 0 }

/-- Clear the insertion time of a current-coin-balance record. -/
def eraseCurrentBalanceTime (c : CurrentCoinBalance) : CurrentCoinBalance :=
  { c with inserted_at := 0 }

/-- Clear every insertion-time field of the four output collections. -/
def eraseOutputTimes (o : ExtractOut) : ExtractOut :=
  (o.1.map eraseActivityTime,
   o.2.1.map eraseCoinInfoTime,
   o.2.2.1.map eraseCoinBalanceTime,
   o.2.2.2.map (fun p => (p.1, eraseCurrentBalanceTime p.2)))

/-- Specification-side definition, following the spec's words "the last such
write in change order": the balance of the last coin-store write for the given
(owner, coin type) key, to be compared with what `processWrites` returns. -/
def lastCoinStoreBalanceSpec :
    List WriteSetChange → CurrentCoinBalancePK → Option Nat
  | [], _ => none
  | wsc :: rest, k =>
    match lastCoinStoreBalanceSpec rest k with
    | some b => some b
    | none =>
      match wsc with
      | .WriteResource write_resource =>
        match write_resource.data with
        | .CoinStoreResource coin_type coin _ _ =>
          if (write_resource.address, coin_type) = k then some coin else none
        | _ => none
      | _ => none

/-- Whether some coin-store write of the change list carries this GUID as its
deposit or withdraw handle ("a matching coin-store write in the same
transaction"). -/
def guidHasCoinStoreWrite (changes : List WriteSetChange)
    (g : EventGuidResource) : Bool :=
  changes.any fun wsc =>
    match wsc with
    | .WriteResource write_resource =>
      match write_resource.data with
      | .CoinStoreResource _ _ deposit_guid withdraw_guid =>
        g = deposit_guid || g = withdraw_guid
      | _ => false
    | _ => false

/-- Deposit GUID of the sample coin store used by the demonstration inputs. -/
def demoGuid : EventGuidResource := { addr := "0xb", creation_num := 9 }

/-- A deposit event with GUID (0xb, 9), sequence 0, amount 50. -/
def demoDepositEvent : APIEvent :=
  { guid := { account_address := "0xb", creation_number := 9 },
    sequence_number := 0, typ := DEPOSIT_EVENT_TYPE, data := .amountPayload 50 }

/-- Transaction info with no write-set changes. -/
def demoInfoNoChanges : TransactionInfo :=
  { version := 1, success := true, gas_used := 0, changes := [] }

/-- A genesis transaction whose deposit event has no matching coin-store
write: its event-to-coin-type map is empty. -/
def demoMissingTxn : APITransaction :=
  .GenesisTransaction demoInfoNoChanges [demoDepositEvent]

/-- A coin-store write at address 0xb whose deposit GUID is (0xb, 9). -/
def demoCoinStoreWrite : WriteSetChange :=
  .WriteResource
    { address := "0xb",
      data := .CoinStoreResource "0x1::aptos_coin::AptosCoin" 100 demoGuid
        { addr := "0xb", creation_num := 10 } }

/-- Info of a failed user transaction carrying the sample coin-store write. -/
def demoUserInfo : TransactionInfo :=
  { version := 7, success := false, gas_used := 3,
    changes := [demoCoinStoreWrite] }

/-- Request of the sample user transaction; its entry-function name is 120
characters long. -/
def demoUserReq : UserTransactionRequest :=
  { sender := "0xa", gas_unit_price := 5,
    payload := .EntryFunctionPayload (String.mk (List.replicate 120 'f')) }

/-- A failed user transaction with one coin-store write and one deposit event. -/
def demoUserTxn : APITransaction :=
  .UserTransaction demoUserInfo [demoDepositEvent] demoUserReq

/-- First coin-store write for key (0xa, C): balance 100. -/
def demoDoubleWrite1 : WriteSetChange :=
  .WriteResource
    { address := "0xa",
      data := .CoinStoreResource "C" 100 { addr := "0xa", creation_num := 1 }
        { addr := "0xa", creation_num := 2 } }

/-- Second coin-store write for key (0xa, C): balance 200. -/
def demoDoubleWrite2 : WriteSetChange :=
  .WriteResource
    { address := "0xa",
      data := .CoinStoreResource "C" 200 { addr := "0xa", creation_num := 1 }
        { addr := "0xa", creation_num := 2 } }

/-- A genesis transaction writing the same coin store twice. -/
def demoDoubleTxn : APITransaction :=
  .GenesisTransaction
    { version := 3, success := true, gas_used := 0,
      changes := [demoDoubleWrite1, demoDoubleWrite2] } []

/-- Inputs of the gas-fee overflow counterexample: gas used is 2^32. -/
def overflowInfo : TransactionInfo :=
  { version := 1, success := true, gas_used := 2 ^ 32, changes := [] }

/-- Inputs of the gas-fee overflow counterexample: gas unit price is 2^32. -/
def overflowReq : UserTransactionRequest :=
  { sender := "0xa", gas_unit_price := 2 ^ 32, payload := .otherPayload }

/-- The event-to-coin-type map a sample extraction works with. -/
def demoEventMap : EventToCoinType := [(demoGuid, APTOS_COIN_TYPE)]

/-- The activity `from_parsed_event` builds for the sample deposit event at
version 7 with clock reading 0. -/
def demoParsedActivity : CoinActivity :=
  { transaction_version := 7, event_account_address := "0xb",
    event_creation_number := 9, event_sequence_number := 0,
    owner_address := "0xb", coin_type := APTOS_COIN_TYPE, amount := 50,
    activity_type := DEPOSIT_EVENT_TYPE, is_gas_fee := false,
    is_transaction_success := true, entry_function_id_str := none,
    inserted_at := 0 }

/-- The write-set changes of a transaction (empty for the ignored variants). -/
def changesOf (transaction : APITransaction) : List WriteSetChange :=
  match txnParts transaction with
  | some (txn_info, _, _) => txn_info.changes
  | none => []

/-- The event-to-coin-type map the extractor builds for a transaction. -/
def eventMapOfTxn (transaction : APITransaction) (now : Nat) : EventToCoinType :=
  (processWrites (changesOf transaction) (txnVersionOf transaction)
    (buildSupplyLookup (changesOf transaction)) now).2.2.2

theorem mapLookup_append {α β : Type} [DecidableEq α] (xs ys : List (α × β))
    (k : α) :
    mapLookup (xs ++ ys) k
      = ((mapLookup xs k).orElse fun _ => mapLookup ys k) := by
  induction xs with
  | nil => simp [mapLookup, Option.orElse]
  | cons p rest ih =>
    obtain ⟨a, b⟩ := p
    by_cases h : k = a
    · simp [mapLookup, h, Option.orElse]
    · simp [mapLookup, h, Option.orElse, ih]

theorem processWrites_lookup (cs : List WriteSetChange) (v : Int)
    (s : List (String × Nat)) (n : Nat) (k : CurrentCoinBalancePK) :
    mapLookup (processWrites cs v s n).2.2.1 k
      = (lastCoinStoreBalanceSpec cs k).map fun b =>
          { owner_address := k.1, coin_type := k.2, amount := b,
            last_transaction_version := v, inserted_at := n } := by
  induction cs with
  | nil => simp [processWrites, lastCoinStoreBalanceSpec, mapLookup]
  | cons wsc rest ih =>
    cases wsc with
    | WriteResource wr =>
      cases hd : wr.data with
      | CoinInfoResource ct name symbol dec sup =>
        simp only [processWrites, CoinBalance.from_write_resource,
          CoinInfo.from_write_resource, hd, lastCoinStoreBalanceSpec]
        rw [ih]
        cases hls : lastCoinStoreBalanceSpec rest k <;> simp
      | CoinStoreResource ct coin dg wg =>
        simp only [processWrites, CoinBalance.from_write_resource,
          CoinInfo.from_write_resource, hd, lastCoinStoreBalanceSpec]
        rw [mapLookup_append, ih]
        cases hls : lastCoinStoreBalanceSpec rest k with
        | some b => simp [Option.orElse]
        | none =>
          by_cases hk : k = (wr.address, ct)
          · subst hk
            simp [Option.orElse, mapLookup]
          · simp [Option.orElse, mapLookup, hk,
              show (wr.address, ct) ≠ k from fun h => hk h.symm]
      | otherResource =>
        simp only [processWrites, CoinBalance.from_write_resource,
          CoinInfo.from_write_resource, hd, lastCoinStoreBalanceSpec]
        rw [ih]
        cases hls : lastCoinStoreBalanceSpec rest k <;> simp
    | WriteTableItem ti =>
      simp only [processWrites, lastCoinStoreBalanceSpec]
      rw [ih]
      cases hls : lastCoinStoreBalanceSpec rest k <;> simp
    | otherChange =>
      simp only [processWrites, lastCoinStoreBalanceSpec]
      rw [ih]
      cases hls : lastCoinStoreBalanceSpec rest k <;> simp

theorem processWrites_e2c_isSome (cs : List WriteSetChange) (v : Int)
    (s : List (String × Nat)) (n : Nat) (g : EventGuidResource) :
    (mapLookup (processWrites cs v s n).2.2.2 g).isSome
      = guidHasCoinStoreWrite cs g := by
  induction cs with
  | nil => simp [processWrites, guidHasCoinStoreWrite, mapLookup]
  | cons wsc rest ih =>
    cases wsc with
    | WriteResource wr =>
      cases hd : wr.data with
      | CoinInfoResource ct name symbol dec sup =>
        simp only [processWrites, CoinBalance.from_write_resource,
          CoinInfo.from_write_resource, hd, guidHasCoinStoreWrite,
          List.any_cons]
        simp only [guidHasCoinStoreWrite] at ih
        simp [hd, ih]
      | CoinStoreResource ct coin dg wg =>
        simp only [processWrites, CoinBalance.from_write_resource,
          CoinInfo.from_write_resource, hd, guidHasCoinStoreWrite,
          List.any_cons]
        rw [mapLookup_append]
        simp only [guidHasCoinStoreWrite] at ih
        cases hr : mapLookup (processWrites rest v s n).2.2.2 g with
        | some ct' =>
          rw [hr] at ih
          simp [Option.orElse, hd, ← ih]
        | none =>
          rw [hr] at ih
          by_cases h1 : g = wg <;> by_cases h2 : g = dg <;>
            simp [Option.orElse, mapLookup, hd, h1, h2, ← ih]
      | otherResource =>
        simp only [processWrites, CoinBalance.from_write_resource,
          CoinInfo.from_write_resource, hd, guidHasCoinStoreWrite,
          List.any_cons]
        simp only [guidHasCoinStoreWrite] at ih
        simp [hd, ih]
    | WriteTableItem ti =>
      simp only [processWrites, guidHasCoinStoreWrite, List.any_cons]
      simp only [guidHasCoinStoreWrite] at ih
      simp [ih]
    | otherChange =>
      simp only [processWrites, guidHasCoinStoreWrite, List.any_cons]
      simp only [guidHasCoinStoreWrite] at ih
      simp [ih]

theorem processWrites_time_inv (cs : List WriteSetChange) (v : Int)
    (s : List (String × Nat)) (n m : Nat) :
    (processWrites cs v s n).1.map eraseCoinInfoTime
        = (processWrites cs v s m).1.map eraseCoinInfoTime
      ∧ (processWrites cs v s n).2.1.map eraseCoinBalanceTime
        = (processWrites cs v s m).2.1.map eraseCoinBalanceTime
      ∧ (processWrites cs v s n).2.2.1.map
            (fun p => (p.1, eraseCurrentBalanceTime p.2))
        = (processWrites cs v s m).2.2.1.map
            (fun p => (p.1, eraseCurrentBalanceTime p.2))
      ∧ (processWrites cs v s n).2.2.2 = (processWrites cs v s m).2.2.2 := by
  induction cs with
  | nil => exact ⟨rfl, rfl, rfl, rfl⟩
  | cons wsc rest ih =>
    obtain ⟨ih1, ih2, ih3, ih4⟩ := ih
    cases wsc with
    | WriteResource wr =>
      cases hd : wr.data with
      | CoinInfoResource ct name symbol dec sup =>
        simp only [eraseCoinInfoTime, eraseCoinBalanceTime,
          eraseCurrentBalanceTime] at ih1 ih2 ih3
        simp [processWrites, CoinBalance.from_write_resource,
          CoinInfo.from_write_resource, hd, eraseCoinInfoTime,
          eraseCoinBalanceTime, eraseCurrentBalanceTime, ih1, ih2, ih3, ih4]
      | CoinStoreResource ct coin dg wg =>
        simp only [eraseCoinInfoTime, eraseCoinBalanceTime,
          eraseCurrentBalanceTime] at ih1 ih2 ih3
        simp [processWrites, CoinBalance.from_write_resource,
          CoinInfo.from_write_resource, hd, eraseCoinInfoTime,
          eraseCoinBalanceTime, eraseCurrentBalanceTime, ih1, ih2, ih3, ih4]
      | otherResource =>
        simp only [eraseCoinInfoTime, eraseCoinBalanceTime,
          eraseCurrentBalanceTime] at ih1 ih2 ih3
        simp [processWrites, CoinBalance.from_write_resource,
          CoinInfo.from_write_resource, hd, eraseCoinInfoTime,
          eraseCoinBalanceTime, eraseCurrentBalanceTime, ih1, ih2, ih3, ih4]
    | WriteTableItem ti =>
      simpa [processWrites] using ⟨ih1, ih2, ih3, ih4⟩
    | otherChange =>
      simpa [processWrites] using ⟨ih1, ih2, ih3, ih4⟩

theorem processEvents_length (evs : List APIEvent) (v : Int)
    (m : EventToCoinType) (efid : Option String) (n : Nat)
    (acts : List CoinActivity)
    (h : processEvents evs v m efid n = .ok acts) :
    acts.length = evs.countP (fun ev => recognizedB ev v) := by
  induction evs generalizing acts with
  | nil =>
    simp only [processEvents, Except.ok.injEq] at h
    subst h
    simp
  | cons ev rest ih =>
    cases hfe : CoinEvent.from_event ev.typ ev.data v with
    | error e => simp [processEvents, hfe] at h
    | ok o =>
      cases o with
      | none =>
        simp only [processEvents, hfe] at h
        rw [List.countP_cons]
        simp [recognizedB, hfe, ih acts h]
      | some pe =>
        simp only [processEvents, hfe] at h
        cases hfp : CoinActivity.from_parsed_event ev.typ ev pe v m efid n with
        | error e => rw [hfp] at h; simp at h
        | ok act =>
          rw [hfp] at h
          cases hre : processEvents rest v m efid n with
          | error e => rw [hre] at h; simp at h
          | ok tail =>
            rw [hre] at h
            simp only [Except.ok.injEq] at h
            subst h
            rw [List.countP_cons]
            simp [recognizedB, hfe, ih tail hre]

theorem processEvents_mem (evs : List APIEvent) (v : Int)
    (m : EventToCoinType) (efid : Option String) (n : Nat)
    (acts : List CoinActivity)
    (h : processEvents evs v m efid n = .ok acts) :
    ∀ a ∈ acts, a.is_gas_fee = false ∧ a.is_transaction_success = true
      ∧ a.entry_function_id_str = efid ∧ a.inserted_at = n := by
  induction evs generalizing acts with
  | nil =>
    simp only [processEvents, Except.ok.injEq] at h
    subst h
    simp
  | cons ev rest ih =>
    cases hfe : CoinEvent.from_event ev.typ ev.data v with
    | error e => simp [processEvents, hfe] at h
    | ok o =>
      cases o with
      | none =>
        simp only [processEvents, hfe] at h
        exact ih acts h
      | some pe =>
        simp only [processEvents, hfe] at h
        cases hfp : CoinActivity.from_parsed_event ev.typ ev pe v m efid n with
        | error e => rw [hfp] at h; simp at h
        | ok act =>
          rw [hfp] at h
          cases hre : processEvents rest v m efid n with
          | error e => rw [hre] at h; simp at h
          | ok tail =>
            rw [hre] at h
            simp only [Except.ok.injEq] at h
            subst h
            intro a ha
            rcases List.mem_cons.mp ha with rfl | ha'
            · cases hlk : mapLookup m (eventGuidOf ev) with
              | none =>
                simp [CoinActivity.from_parsed_event, hlk] at hfp
              | some ct =>
                simp only [CoinActivity.from_parsed_event, hlk,
                  Except.ok.injEq] at hfp
                subst hfp
                exact ⟨rfl, rfl, rfl, rfl⟩
            · exact ih tail hre a ha'

theorem processEvents_missing (evs : List APIEvent) (v : Int)
    (m : EventToCoinType) (efid : Option String) (n : Nat)
    (hdec : ∀ ev ∈ evs, decodeOkB ev v = true)
    (hmiss : ∃ ev ∈ evs, recognizedB ev v = true
      ∧ mapLookup m (eventGuidOf ev) = none) :
    ∃ g, processEvents evs v m efid n = .error (.MissingCoinType v g m)
      ∧ mapLookup m g = none := by
  induction evs with
  | nil =>
    obtain ⟨ev, hmem, _⟩ := hmiss
    simp at hmem
  | cons ev rest ih =>
    cases hfe : CoinEvent.from_event ev.typ ev.data v with
    | error e =>
      have hok := hdec ev (List.mem_cons_self ev rest)
      simp [decodeOkB, hfe] at hok
    | ok o =>
      cases o with
      | some pe =>
        cases hlk : mapLookup m (eventGuidOf ev) with
        | none =>
          refine ⟨eventGuidOf ev, ?_, hlk⟩
          simp [processEvents, hfe, CoinActivity.from_parsed_event, hlk]
        | some ct =>
          obtain ⟨ev', hmem, hrec, hm⟩ := hmiss
          rcases List.mem_cons.mp hmem with rfl | hmem'
          · rw [hlk] at hm; cases hm
          · obtain ⟨g, hg, hgn⟩ :=
              ih (fun e he => hdec e (List.mem_cons_of_mem _ he))
                ⟨ev', hmem', hrec, hm⟩
            refine ⟨g, ?_, hgn⟩
            simp [processEvents, hfe, CoinActivity.from_parsed_event, hlk, hg]
      | none =>
        obtain ⟨ev', hmem, hrec, hm⟩ := hmiss
        rcases List.mem_cons.mp hmem with rfl | hmem'
        · simp [recognizedB, hfe] at hrec
        · obtain ⟨g, hg, hgn⟩ :=
            ih (fun e he => hdec e (List.mem_cons_of_mem _ he))
              ⟨ev', hmem', hrec, hm⟩
          exact ⟨g, by simp [processEvents, hfe, hg], hgn⟩

theorem processEvents_time_inv (evs : List APIEvent) (v : Int)
    (m : EventToCoinType) (efid : Option String) (n n' : Nat) :
    (processEvents evs v m efid n).map (List.map eraseActivityTime)
      = (processEvents evs v m efid n').map (List.map eraseActivityTime) := by
  induction evs with
  | nil => rfl
  | cons ev rest ih =>
    cases hfe : CoinEvent.from_event ev.typ ev.data v with
    | error e => simp [processEvents, hfe]
    | ok o =>
      cases o with
      | none => simpa [processEvents, hfe] using ih
      | some pe =>
        cases hlk : mapLookup m (eventGuidOf ev) with
        | none =>
          simp [processEvents, hfe, CoinActivity.from_parsed_event, hlk]
        | some ct =>
          simp only [processEvents, hfe, CoinActivity.from_parsed_event, hlk]
          cases hn : processEvents rest v m efid n with
          | error e =>
            cases hn' : processEvents rest v m efid n' with
            | error e' =>
              rw [hn, hn'] at ih
              simp only [Except.map] at ih
              simp only [Except.error.injEq] at ih
              subst ih
              simp [Except.map]
            | ok tail' =>
              rw [hn, hn'] at ih
              simp [Except.map] at ih
          | ok tail =>
            cases hn' : processEvents rest v m efid n' with
            | error e' =>
              rw [hn, hn'] at ih
              simp [Except.map] at ih
            | ok tail' =>
              rw [hn, hn'] at ih
              simp only [Except.map, Except.ok.injEq] at ih
              simp [Except.map, eraseActivityTime, ih]

theorem fromParts_time_inv (txn_info : TransactionInfo)
    (events : List APIEvent)
    (maybe_user_request : Option UserTransactionRequest) (n1 n2 : Nat) :
    (fromParts txn_info events maybe_user_request n1).map eraseOutputTimes
      = (fromParts txn_info events maybe_user_request n2).map eraseOutputTimes := by
  obtain ⟨hw1, hw2, hw3, hw4⟩ :=
    processWrites_time_inv txn_info.changes (u64ToI64 txn_info.version)
      (buildSupplyLookup txn_info.changes) n1 n2
  cases maybe_user_request with
  | none =>
    have hpe :=
      processEvents_time_inv events (u64ToI64 txn_info.version)
        ((processWrites txn_info.changes (u64ToI64 txn_info.version)
          (buildSupplyLookup txn_info.changes) n2).2.2.2) none n1 n2
    simp only [fromParts, hw4]
    cases hn : processEvents events (u64ToI64 txn_info.version)
        ((processWrites txn_info.changes (u64ToI64 txn_info.version)
          (buildSupplyLookup txn_info.changes) n2).2.2.2) none n1 with
    | error e =>
      cases hn' : processEvents events (u64ToI64 txn_info.version)
          ((processWrites txn_info.changes (u64ToI64 txn_info.version)
            (buildSupplyLookup txn_info.changes) n2).2.2.2) none n2 with
      | error e' =>
        rw [hn, hn'] at hpe
        simp only [Except.map, Except.error.injEq] at hpe
        subst hpe
        simp [Except.map]
      | ok acts2 =>
        rw [hn, hn'] at hpe
        simp [Except.map] at hpe
    | ok acts1 =>
      cases hn' : processEvents events (u64ToI64 txn_info.version)
          ((processWrites txn_info.changes (u64ToI64 txn_info.version)
            (buildSupplyLookup txn_info.changes) n2).2.2.2) none n2 with
      | error e' =>
        rw [hn, hn'] at hpe
        simp [Except.map] at hpe
      | ok acts2 =>
        rw [hn, hn'] at hpe
        simp only [Except.map, Except.ok.injEq] at hpe
        simp only [Except.map, Except.ok.injEq, eraseOutputTimes,
          Prod.mk.injEq]
        exact ⟨by simpa using hpe, hw1, hw2, hw3⟩
  | some user_request =>
    have hpe :=
      processEvents_time_inv events (u64ToI64 txn_info.version)
        ((processWrites txn_info.changes (u64ToI64 txn_info.version)
          (buildSupplyLookup txn_info.changes) n2).2.2.2)
        (entryFunctionIdOf user_request) n1 n2
    simp only [fromParts, hw4]
    cases hn : processEvents events (u64ToI64 txn_info.version)
        ((processWrites txn_info.changes (u64ToI64 txn_info.version)
          (buildSupplyLookup txn_info.changes) n2).2.2.2)
        (entryFunctionIdOf user_request) n1 with
    | error e =>
      cases hn' : processEvents events (u64ToI64 txn_info.version)
          ((processWrites txn_info.changes (u64ToI64 txn_info.version)
            (buildSupplyLookup txn_info.changes) n2).2.2.2)
          (entryFunctionIdOf user_request) n2 with
      | error e' =>
        rw [hn, hn'] at hpe
        simp only [Except.map, Except.error.injEq] at hpe
        subst hpe
        simp [Except.map]
      | ok acts2 =>
        rw [hn, hn'] at hpe
        simp [Except.map] at hpe
    | ok acts1 =>
      cases hn' : processEvents events (u64ToI64 txn_info.version)
          ((processWrites txn_info.changes (u64ToI64 txn_info.version)
            (buildSupplyLookup txn_info.changes) n2).2.2.2)
          (entryFunctionIdOf user_request) n2 with
      | error e' =>
        rw [hn, hn'] at hpe
        simp [Except.map] at hpe
      | ok acts2 =>
        rw [hn, hn'] at hpe
        simp only [Except.map, Except.ok.injEq] at hpe
        simp only [Except.map, Except.ok.injEq, eraseOutputTimes,
          Prod.mk.injEq]
        refine ⟨?_, hw1, hw2, hw3⟩
        simp only [List.map_append]
        rw [show (List.map eraseActivityTime acts1) =
          (List.map eraseActivityTime acts2) from by simpa using hpe]
        simp [CoinActivity.get_gas_event, eraseActivityTime]

/-- C5: extraction is deterministic and pure: the embedding is a function of
the transaction and the clock alone, and for any two clock readings the four
output collections agree on every field except the insertion time. -/
theorem from_transaction_time_invariant (t : APITransaction) (n1 n2 : Nat) :
    (CoinActivity.from_transaction t n1).map eraseOutputTimes
      = (CoinActivity.from_transaction t n2).map eraseOutputTimes := by
  cases ht : txnParts t with
  | none => simp [CoinActivity.from_transaction, ht]
  | some parts =>
    obtain ⟨txn_info, events, maybe_user_request⟩ := parts
    simp only [CoinActivity.from_transaction, ht]
    exact fromParts_time_inv txn_info events maybe_user_request n1 n2

/-- C7: a transaction whose variant is neither genesis nor user-submitted
carries no ledger state of interest and yields four empty output collections. -/
theorem non_ledger_txn_empty_output (t : APITransaction) (now : Nat)
    (h : txnParts t = none) :
    CoinActivity.from_transaction t now = .ok ([], [], [], []) := by
  simp [CoinActivity.from_transaction, h]

theorem non_ledger_txn_empty_output_witness :
    CoinActivity.from_transaction .otherTransaction 0 = .ok ([], [], [], []) :=
  non_ledger_txn_empty_output .otherTransaction 0 rfl

/-- C3: the gas-fee amount is NOT exact for all operand values: the source
multiplies `gas_used` and `gas_unit_price` as u64 before converting to
BigDecimal, so the product wraps modulo 2^64. At gas_used = 2^32 and
gas_unit_price = 2^32 the recorded amount is 0 while the exact product is
2^64: the precision-preserving claim fails and the u64 multiplication is the
slip (debug builds panic on this overflow). -/
theorem gas_fee_amount_wraps_on_overflow :
    (CoinActivity.get_gas_event overflowInfo overflowReq 0).amount = 0
      ∧ overflowInfo.gas_used * overflowReq.gas_unit_price = 2 ^ 64 := by
  constructor
  · norm_num [CoinActivity.get_gas_event, overflowInfo, overflowReq]
  · norm_num [overflowInfo, overflowReq]

/-- C2: when extraction succeeds, the number of activities equals the number
of events recognized as withdraw or deposit, plus one exactly when the
transaction is user-submitted; unrecognized events contribute nothing. -/
theorem activity_count_eq (t : APITransaction) (now : Nat)
    (hok : (CoinActivity.from_transaction t now).isOk = true) :
    (extractedActivities (CoinActivity.from_transaction t now)).length
      = (eventsOf t).countP (fun ev => recognizedB ev (txnVersionOf t))
        + (if isUserTxn t then 1 else 0) := by
  cases t with
  | otherTransaction =>
    simp [CoinActivity.from_transaction, txnParts, extractedActivities,
      eventsOf, isUserTxn]
  | GenesisTransaction info events =>
    cases hpe : processEvents events (u64ToI64 info.version)
        ((processWrites info.changes (u64ToI64 info.version)
          (buildSupplyLookup info.changes) now).2.2.2) none now with
    | error e =>
      have hft : CoinActivity.from_transaction
          (.GenesisTransaction info events) now = .error e := by
        simp [CoinActivity.from_transaction, txnParts, fromParts, hpe]
      rw [hft] at hok
      simp [Except.isOk, Except.toBool] at hok
    | ok acts =>
      have hft : CoinActivity.from_transaction
          (.GenesisTransaction info events) now
          = .ok (acts,
              (processWrites info.changes (u64ToI64 info.version)
                (buildSupplyLookup info.changes) now).1,
              (processWrites info.changes (u64ToI64 info.version)
                (buildSupplyLookup info.changes) now).2.1,
              (processWrites info.changes (u64ToI64 info.version)
                (buildSupplyLookup info.changes) now).2.2.1) := by
        simp [CoinActivity.from_transaction, txnParts, fromParts, hpe]
      rw [hft]
      simp [extractedActivities, eventsOf, txnParts, isUserTxn, txnVersionOf,
        processEvents_length events _ _ _ _ acts hpe]
  | UserTransaction info events req =>
    cases hpe : processEvents events (u64ToI64 info.version)
        ((processWrites info.changes (u64ToI64 info.version)
          (buildSupplyLookup info.changes) now).2.2.2)
        (entryFunctionIdOf req) now with
    | error e =>
      have hft : CoinActivity.from_transaction
          (.UserTransaction info events req) now = .error e := by
        simp [CoinActivity.from_transaction, txnParts, fromParts, hpe]
      rw [hft] at hok
      simp [Except.isOk, Except.toBool] at hok
    | ok acts =>
      have hft : CoinActivity.from_transaction
          (.UserTransaction info events req) now
          = .ok (CoinActivity.get_gas_event info req now :: acts,
              (processWrites info.changes (u64ToI64 info.version)
                (buildSupplyLookup info.changes) now).1,
              (processWrites info.changes (u64ToI64 info.version)
                (buildSupplyLookup info.changes) now).2.1,
              (processWrites info.changes (u64ToI64 info.version)
                (buildSupplyLookup info.changes) now).2.2.1) := by
        simp [CoinActivity.from_transaction, txnParts, fromParts, hpe]
      rw [hft]
      simp [extractedActivities, eventsOf, txnParts, isUserTxn, txnVersionOf,
        processEvents_length events _ _ _ _ acts hpe]

theorem activity_count_eq_witness :
    (extractedActivities (CoinActivity.from_transaction demoUserTxn 0)).length
      = (eventsOf demoUserTxn).countP
          (fun ev => recognizedB ev (txnVersionOf demoUserTxn))
        + (if isUserTxn demoUserTxn then 1 else 0) :=
  activity_count_eq demoUserTxn 0 (by rfl)

/-- C4: the synthetic gas-fee activity of a user-submitted transaction uses
the reserved negative sentinel GUID (-1, -1), the reserved gas-burn label
(distinct from both real event types), sender as owner and event account,
the native gas coin, is flagged as gas fee, and mirrors the transaction's
own success flag. -/
theorem gas_event_fields (info : TransactionInfo) (events : List APIEvent)
    (req : UserTransactionRequest) (now : Nat)
    (hok : (CoinActivity.from_transaction
      (.UserTransaction info events req) now).isOk = true) :
    (headActivity (CoinActivity.from_transaction
        (.UserTransaction info events req) now)).event_creation_number
        = BURN_GAS_EVENT_CREATION_NUM
      ∧ (headActivity (CoinActivity.from_transaction
          (.UserTransaction info events req) now)).event_sequence_number
        = BURN_GAS_EVENT_SEQUENCE_NUM
      ∧ BURN_GAS_EVENT_CREATION_NUM < 0
      ∧ BURN_GAS_EVENT_SEQUENCE_NUM < 0
      ∧ (headActivity (CoinActivity.from_transaction
          (.UserTransaction info events req) now)).activity_type
        = BURN_GAS_EVENT
      ∧ BURN_GAS_EVENT ≠ WITHDRAW_EVENT_TYPE
      ∧ BURN_GAS_EVENT ≠ DEPOSIT_EVENT_TYPE
      ∧ (headActivity (CoinActivity.from_transaction
          (.UserTransaction info events req) now)).owner_address
        = req.sender
      ∧ (headActivity (CoinActivity.from_transaction
          (.UserTransaction info events req) now)).event_account_address
        = req.sender
      ∧ (headActivity (CoinActivity.from_transaction
          (.UserTransaction info events req) now)).coin_type
        = APTOS_COIN_TYPE
      ∧ (headActivity (CoinActivity.from_transaction
          (.UserTransaction info events req) now)).is_gas_fee = true
      ∧ (headActivity (CoinActivity.from_transaction
          (.UserTransaction info events req) now)).is_transaction_success
        = info.success := by
  cases hpe : processEvents events (u64ToI64 info.version)
      ((processWrites info.changes (u64ToI64 info.version)
        (buildSupplyLookup info.changes) now).2.2.2)
      (entryFunctionIdOf req) now with
  | error e =>
    have hft : CoinActivity.from_transaction
        (.UserTransaction info events req) now = .error e := by
      simp [CoinActivity.from_transaction, txnParts, fromParts, hpe]
    rw [hft] at hok
    simp [Except.isOk, Except.toBool] at hok
  | ok acts =>
    have hft : CoinActivity.from_transaction
        (.UserTransaction info events req) now
        = .ok (CoinActivity.get_gas_event info req now :: acts,
            (processWrites info.changes (u64ToI64 info.version)
              (buildSupplyLookup info.changes) now).1,
            (processWrites info.changes (u64ToI64 info.version)
              (buildSupplyLookup info.changes) now).2.1,
            (processWrites info.changes (u64ToI64 info.version)
              (buildSupplyLookup info.changes) now).2.2.1) := by
      simp [CoinActivity.from_transaction, txnParts, fromParts, hpe]
    rw [hft]
    refine ⟨rfl, rfl, by decide, by decide, rfl, by decide, by decide,
      rfl, rfl, rfl, rfl, rfl⟩

theorem gas_event_fields_witness :
    (headActivity (CoinActivity.from_transaction
        (.UserTransaction demoUserInfo [demoDepositEvent] demoUserReq) 0)).event_creation_number
        = BURN_GAS_EVENT_CREATION_NUM
      ∧ (headActivity (CoinActivity.from_transaction
          (.UserTransaction demoUserInfo [demoDepositEvent] demoUserReq) 0)).event_sequence_number
        = BURN_GAS_EVENT_SEQUENCE_NUM
      ∧ BURN_GAS_EVENT_CREATION_NUM < 0
      ∧ BURN_GAS_EVENT_SEQUENCE_NUM < 0
      ∧ (headActivity (CoinActivity.from_transaction
          (.UserTransaction demoUserInfo [demoDepositEvent] demoUserReq) 0)).activity_type
        = BURN_GAS_EVENT
      ∧ BURN_GAS_EVENT ≠ WITHDRAW_EVENT_TYPE
      ∧ BURN_GAS_EVENT ≠ DEPOSIT_EVENT_TYPE
      ∧ (headActivity (CoinActivity.from_transaction
          (.UserTransaction demoUserInfo [demoDepositEvent] demoUserReq) 0)).owner_address
        = demoUserReq.sender
      ∧ (headActivity (CoinActivity.from_transaction
          (.UserTransaction demoUserInfo [demoDepositEvent] demoUserReq) 0)).event_account_address
        = demoUserReq.sender
      ∧ (headActivity (CoinActivity.from_transaction
          (.UserTransaction demoUserInfo [demoDepositEvent] demoUserReq) 0)).coin_type
        = APTOS_COIN_TYPE
      ∧ (headActivity (CoinActivity.from_transaction
          (.UserTransaction demoUserInfo [demoDepositEvent] demoUserReq) 0)).is_gas_fee = true
      ∧ (headActivity (CoinActivity.from_transaction
          (.UserTransaction demoUserInfo [demoDepositEvent] demoUserReq) 0)).is_transaction_success
        = demoUserInfo.success :=
  gas_event_fields demoUserInfo [demoDepositEvent] demoUserReq 0 (by rfl)


/-- C9: an activity built from a real withdraw/deposit event always records
is_gas_fee = false and is_transaction_success = true (a constant, regardless
of the transaction's actual outcome, which `from_parsed_event` never sees);
only the synthetic gas-fee activity carries the real success flag. -/
theorem event_activity_success_flag (event_type : String) (event : APIEvent)
    (coin_event : CoinEvent) (txn_version : Int) (m : EventToCoinType)
    (efid : Option String) (now : Nat) (a : CoinActivity)
    (h : CoinActivity.from_parsed_event event_type event coin_event
      txn_version m efid now = .ok a) :
    a.is_gas_fee = false ∧ a.is_transaction_success = true := by
  cases hlk : mapLookup m (eventGuidOf event) with
  | none => simp [CoinActivity.from_parsed_event, hlk] at h
  | some ct =>
    simp only [CoinActivity.from_parsed_event, hlk, Except.ok.injEq] at h
    subst h
    exact ⟨rfl, rfl⟩

theorem event_activity_success_flag_witness :
    demoParsedActivity.is_gas_fee = false
      ∧ demoParsedActivity.is_transaction_success = true :=
  event_activity_success_flag DEPOSIT_EVENT_TYPE demoDepositEvent
    (.DepositCoinEvent 50) 7 demoEventMap none 0 demoParsedActivity (by rfl)

theorem user_txn_efid_shape (info : TransactionInfo)
    (events : List APIEvent) (req : UserTransactionRequest) (now : Nat)
    (hok : (CoinActivity.from_transaction
      (.UserTransaction info events req) now).isOk = true) :
    (headActivity (CoinActivity.from_transaction
        (.UserTransaction info events req) now)).entry_function_id_str = none
      ∧ ((extractedActivities (CoinActivity.from_transaction
            (.UserTransaction info events req) now)).drop 1).all
          (fun a => a.entry_function_id_str == entryFunctionIdOf req) = true := by
  cases hpe : processEvents events (u64ToI64 info.version)
      ((processWrites info.changes (u64ToI64 info.version)
        (buildSupplyLookup info.changes) now).2.2.2)
      (entryFunctionIdOf req) now with
  | error e =>
    have hft : CoinActivity.from_transaction
        (.UserTransaction info events req) now = .error e := by
      simp [CoinActivity.from_transaction, txnParts, fromParts, hpe]
    rw [hft] at hok
    simp [Except.isOk, Except.toBool] at hok
  | ok acts =>
    have hft : CoinActivity.from_transaction
        (.UserTransaction info events req) now
        = .ok (CoinActivity.get_gas_event info req now :: acts,
            (processWrites info.changes (u64ToI64 info.version)
              (buildSupplyLookup info.changes) now).1,
            (processWrites info.changes (u64ToI64 info.version)
              (buildSupplyLookup info.changes) now).2.1,
            (processWrites info.changes (u64ToI64 info.version)
              (buildSupplyLookup info.changes) now).2.2.1) := by
      simp [CoinActivity.from_transaction, txnParts, fromParts, hpe]
    rw [hft]
    refine ⟨rfl, ?_⟩
    simp only [extractedActivities, List.drop_succ_cons, List.drop_zero,
      List.all_eq_true]
    intro a ha
    have hfields := processEvents_mem events _ _ _ _ acts hpe a ha
    simp [hfields.2.2.1]

/-- C10: the synthetic gas-fee activity never carries an entry-function
identifier (even when the payload is an entry-function call), while every
event-derived activity of the same user transaction carries the computed
identifier. -/
theorem gas_event_no_entry_function_id (info : TransactionInfo)
    (events : List APIEvent) (req : UserTransactionRequest) (now : Nat)
    (hok : (CoinActivity.from_transaction
      (.UserTransaction info events req) now).isOk = true) :
    (headActivity (CoinActivity.from_transaction
        (.UserTransaction info events req) now)).entry_function_id_str = none
      ∧ ((extractedActivities (CoinActivity.from_transaction
            (.UserTransaction info events req) now)).drop 1).all
          (fun a => a.entry_function_id_str == entryFunctionIdOf req) = true :=
  user_txn_efid_shape info events req now hok

theorem gas_event_no_entry_function_id_witness :
    (headActivity (CoinActivity.from_transaction
        (.UserTransaction demoUserInfo [demoDepositEvent] demoUserReq) 0)).entry_function_id_str = none
      ∧ ((extractedActivities (CoinActivity.from_transaction
            (.UserTransaction demoUserInfo [demoDepositEvent] demoUserReq) 0)).drop 1).all
          (fun a => a.entry_function_id_str == entryFunctionIdOf demoUserReq) = true :=
  gas_event_no_entry_function_id demoUserInfo [demoDepositEvent] demoUserReq 0
    (by rfl)

/-- C8: the entry-function identifier attached to the event-derived activities
of a user transaction is the function name truncated to at most 100
characters (exactly 100 when the name is longer), and it is absent for any
non-entry-function payload. -/
theorem entry_function_id_truncation (info : TransactionInfo)
    (events : List APIEvent) (req : UserTransactionRequest) (now : Nat)
    (hok : (CoinActivity.from_transaction
      (.UserTransaction info events req) now).isOk = true) :
    ((extractedActivities (CoinActivity.from_transaction
          (.UserTransaction info events req) now)).drop 1).all
        (fun a => a.entry_function_id_str == entryFunctionIdOf req) = true
      ∧ (match req.payload with
         | .EntryFunctionPayload f =>
             entryFunctionIdOf req = some (truncate_str f 100)
               ∧ (truncate_str f 100).length = min 100 f.length
         | .otherPayload => entryFunctionIdOf req = none) := by
  refine ⟨(user_txn_efid_shape info events req now hok).2, ?_⟩
  cases hp : req.payload with
  | EntryFunctionPayload f =>
    refine ⟨by simp [entryFunctionIdOf, hp], ?_⟩
    have h1 : (truncate_str f 100).length = (f.data.take 100).length := rfl
    rw [h1, List.length_take]
    rfl
  | otherPayload => simp [entryFunctionIdOf, hp]

theorem entry_function_id_truncation_witness :
    ((extractedActivities (CoinActivity.from_transaction
          (.UserTransaction demoUserInfo [demoDepositEvent] demoUserReq) 0)).drop 1).all
        (fun a => a.entry_function_id_str == entryFunctionIdOf demoUserReq) = true
      ∧ (match demoUserReq.payload with
         | .EntryFunctionPayload f =>
             entryFunctionIdOf demoUserReq = some (truncate_str f 100)
               ∧ (truncate_str f 100).length = min 100 f.length
         | .otherPayload => entryFunctionIdOf demoUserReq = none) :=
  entry_function_id_truncation demoUserInfo [demoDepositEvent] demoUserReq 0
    (by rfl)


/-- C6: the current-coin-balance map of a successful extraction is exactly
characterized by the last coin-store write per (owner, coin type) key in
change order: present with the balance of the last such write, absent when
the key was never written. -/
theorem current_balance_last_write_wins (t : APITransaction) (now : Nat)
    (k : CurrentCoinBalancePK)
    (hok : (CoinActivity.from_transaction t now).isOk = true) :
    mapLookup (extractedCurrentBalances (CoinActivity.from_transaction t now)) k
      = (lastCoinStoreBalanceSpec (changesOf t) k).map fun b =>
          { owner_address := k.1, coin_type := k.2, amount := b,
            last_transaction_version := txnVersionOf t, inserted_at := now } := by
  cases t with
  | otherTransaction =>
    simp [CoinActivity.from_transaction, txnParts, extractedCurrentBalances,
      changesOf, lastCoinStoreBalanceSpec, mapLookup]
  | GenesisTransaction info events =>
    cases hpe : processEvents events (u64ToI64 info.version)
        ((processWrites info.changes (u64ToI64 info.version)
          (buildSupplyLookup info.changes) now).2.2.2) none now with
    | error e =>
      have hft : CoinActivity.from_transaction
          (.GenesisTransaction info events) now = .error e := by
        simp [CoinActivity.from_transaction, txnParts, fromParts, hpe]
      rw [hft] at hok
      simp [Except.isOk, Except.toBool] at hok
    | ok acts =>
      have hft : CoinActivity.from_transaction
          (.GenesisTransaction info events) now
          = .ok (acts,
              (processWrites info.changes (u64ToI64 info.version)
                (buildSupplyLookup info.changes) now).1,
              (processWrites info.changes (u64ToI64 info.version)
                (buildSupplyLookup info.changes) now).2.1,
              (processWrites info.changes (u64ToI64 info.version)
                (buildSupplyLookup info.changes) now).2.2.1) := by
        simp [CoinActivity.from_transaction, txnParts, fromParts, hpe]
      rw [hft]
      simp only [extractedCurrentBalances, changesOf, txnVersionOf, txnParts]
      exact processWrites_lookup info.changes (u64ToI64 info.version)
        (buildSupplyLookup info.changes) now k
  | UserTransaction info events req =>
    cases hpe : processEvents events (u64ToI64 info.version)
        ((processWrites info.changes (u64ToI64 info.version)
          (buildSupplyLookup info.changes) now).2.2.2)
        (entryFunctionIdOf req) now with
    | error e =>
      have hft : CoinActivity.from_transaction
          (.UserTransaction info events req) now = .error e := by
        simp [CoinActivity.from_transaction, txnParts, fromParts, hpe]
      rw [hft] at hok
      simp [Except.isOk, Except.toBool] at hok
    | ok acts =>
      have hft : CoinActivity.from_transaction
          (.UserTransaction info events req) now
          = .ok (CoinActivity.get_gas_event info req now :: acts,
              (processWrites info.changes (u64ToI64 info.version)
                (buildSupplyLookup info.changes) now).1,
              (processWrites info.changes (u64ToI64 info.version)
                (buildSupplyLookup info.changes) now).2.1,
              (processWrites info.changes (u64ToI64 info.version)
                (buildSupplyLookup info.changes) now).2.2.1) := by
        simp [CoinActivity.from_transaction, txnParts, fromParts, hpe]
      rw [hft]
      simp only [extractedCurrentBalances, changesOf, txnVersionOf, txnParts]
      exact processWrites_lookup info.changes (u64ToI64 info.version)
        (buildSupplyLookup info.changes) now k

theorem current_balance_last_write_wins_witness :
    mapLookup (extractedCurrentBalances
        (CoinActivity.from_transaction demoDoubleTxn 0)) ("0xa", "C")
      = (lastCoinStoreBalanceSpec (changesOf demoDoubleTxn) ("0xa", "C")).map
          fun b =>
            { owner_address := ("0xa", "C").1, coin_type := ("0xa", "C").2,
              amount := b, last_transaction_version := txnVersionOf demoDoubleTxn,
              inserted_at := 0 } :=
  current_balance_last_write_wins demoDoubleTxn 0 ("0xa", "C") (by rfl)

theorem fromParts_missing (info : TransactionInfo) (events : List APIEvent)
    (mreq : Option UserTransactionRequest) (now : Nat)
    (hdec : ∀ ev ∈ events, decodeOkB ev (u64ToI64 info.version) = true)
    (hmiss : ∃ ev ∈ events, recognizedB ev (u64ToI64 info.version) = true
      ∧ guidHasCoinStoreWrite info.changes (eventGuidOf ev) = false) :
    ∃ g, fromParts info events mreq now
        = .error (.MissingCoinType (u64ToI64 info.version) g
            ((processWrites info.changes (u64ToI64 info.version)
              (buildSupplyLookup info.changes) now).2.2.2))
      ∧ mapLookup ((processWrites info.changes (u64ToI64 info.version)
          (buildSupplyLookup info.changes) now).2.2.2) g = none := by
  have hmiss' : ∃ ev ∈ events, recognizedB ev (u64ToI64 info.version) = true
      ∧ mapLookup ((processWrites info.changes (u64ToI64 info.version)
          (buildSupplyLookup info.changes) now).2.2.2) (eventGuidOf ev)
        = none := by
    obtain ⟨ev, hmem, hrec, hwr⟩ := hmiss
    refine ⟨ev, hmem, hrec, ?_⟩
    have hiso := processWrites_e2c_isSome info.changes (u64ToI64 info.version)
      (buildSupplyLookup info.changes) now (eventGuidOf ev)
    rw [hwr] at hiso
    cases hm : mapLookup ((processWrites info.changes (u64ToI64 info.version)
        (buildSupplyLookup info.changes) now).2.2.2) (eventGuidOf ev) with
    | none => rfl
    | some ct => rw [hm] at hiso; simp at hiso
  cases mreq with
  | none =>
    obtain ⟨g, hg, hgn⟩ := processEvents_missing events (u64ToI64 info.version)
      ((processWrites info.changes (u64ToI64 info.version)
        (buildSupplyLookup info.changes) now).2.2.2) none now hdec hmiss'
    exact ⟨g, by simp [fromParts, hg], hgn⟩
  | some req =>
    obtain ⟨g, hg, hgn⟩ := processEvents_missing events (u64ToI64 info.version)
      ((processWrites info.changes (u64ToI64 info.version)
        (buildSupplyLookup info.changes) now).2.2.2)
      (entryFunctionIdOf req) now hdec hmiss'
    exact ⟨g, by simp [fromParts, hg], hgn⟩

/-- C1: a recognized withdraw/deposit event whose GUID has no matching
coin-store write in the same transaction makes extraction fail fatally with
MissingCoinType, reported with the transaction version, an offending GUID
(one absent from the map), and the full event-to-coin-type map; the error
result carries no output collections. -/
theorem missing_coin_type_fatal (t : APITransaction) (now : Nat)
    (hdec : ∀ ev ∈ eventsOf t, decodeOkB ev (txnVersionOf t) = true)
    (hmiss : ∃ ev ∈ eventsOf t, recognizedB ev (txnVersionOf t) = true
      ∧ guidHasCoinStoreWrite (changesOf t) (eventGuidOf ev) = false) :
    ∃ g, CoinActivity.from_transaction t now
        = .error (.MissingCoinType (txnVersionOf t) g (eventMapOfTxn t now))
      ∧ mapLookup (eventMapOfTxn t now) g = none := by
  cases t with
  | otherTransaction =>
    obtain ⟨ev, hmem, _⟩ := hmiss
    simp [eventsOf, txnParts] at hmem
  | GenesisTransaction info events =>
    simp only [eventsOf, txnVersionOf, changesOf, txnParts] at hdec hmiss
    simp only [CoinActivity.from_transaction, txnParts, eventMapOfTxn,
      changesOf, txnVersionOf]
    exact fromParts_missing info events none now hdec hmiss
  | UserTransaction info events req =>
    simp only [eventsOf, txnVersionOf, changesOf, txnParts] at hdec hmiss
    simp only [CoinActivity.from_transaction, txnParts, eventMapOfTxn,
      changesOf, txnVersionOf]
    exact fromParts_missing info events (some req) now hdec hmiss

theorem missing_coin_type_fatal_witness :
    ∃ g, CoinActivity.from_transaction demoMissingTxn 0
        = .error (.MissingCoinType (txnVersionOf demoMissingTxn) g
            (eventMapOfTxn demoMissingTxn 0))
      ∧ mapLookup (eventMapOfTxn demoMissingTxn 0) g = none :=
  missing_coin_type_fatal demoMissingTxn 0 (by decide) (by decide)
